import Mathlib

/-!
Verification of the sentiment-scoring pipeline of StockSentimentPro.

The development shallowly embeds the two sentiment modules
(utils/advanced_sentiment.py and utils/sentiment_analysis.py):

* Python floats are modelled as exact rationals.
* Python strings are modelled as lists of characters; Python values that may
  or may not be strings are modelled by the type PyVal.
* The two third-party sentiment models (NLTK's VADER analyzer and TextBlob)
  are external libraries, not code of this repository; they are abstracted as
  function parameters bundled in the Models structure, so every theorem
  quantifies over the model outputs.
* The regular-expression substitutions of preprocess_text are implemented by
  a character-level scanner with the same left-to-right, leftmost-match
  semantics as Python's re.sub for the patterns that occur in the source
  (each pattern is a fixed literal prefix followed by a greedy repeated
  character class).  The scanner recurses on a fuel argument equal to the
  length of the input so that it is structurally recursive and computable by
  the kernel; the fuel is always sufficient.
* The character classes \w, \d, \s and str.lower are modelled by their
  ASCII fragments, on which they agree character-for-character with Python's
  Unicode semantics; statements about the normalizer's output alphabet are
  therefore made for ASCII inputs.
-/

/-- A three-way sentiment label. -/
inductive Label where
  | positive
  | negative
  | neutral
deriving DecidableEq, Repr

/-- A Python value as it can reach the sentiment pipeline: a string, a float,
an integer, a boolean, or None.  Any non-string constructor exercises the
not-isinstance branch of the source. -/
inductive PyVal where
  | str (s : List Char)
  | float (q : ℚ)
  | int (z : ℤ)
  | bool (b : Bool)
  | none
deriving DecidableEq, Repr

/-- Output of sia.polarity_scores: the VADER lexicon-rule model. -/
structure VaderScores where
  pos : ℚ
  neg : ℚ
  neu : ℚ
  compound : ℚ
deriving DecidableEq, Repr

/-- Output of TextBlob(text).sentiment: the polarity/subjectivity model. -/
structure BlobSentiment where
  polarity : ℚ
  subjectivity : ℚ
deriving DecidableEq, Repr

/-- The two heuristic sentiment models, abstracted as functions from the
(preprocessed) text to their scores. -/
structure Models where
  vader : List Char → VaderScores
  blob : List Char → BlobSentiment

/-- The dictionary returned by enhanced_sentiment_analysis.  The degenerate
early return carries neither a subjectivity nor a model key, hence the two
Option fields. -/
structure SentimentResult where
  compound : ℚ
  positive : ℚ
  negative : ℚ
  neutral : ℚ
  subjectivity : Option ℚ
  sentiment : Label
  model : Option String
deriving DecidableEq, Repr

/-! ## Text preprocessing (preprocess_text, advanced_sentiment.py lines 27-60) -/

/-- The ASCII fragment of Python's Unicode regex class \w: letters, digits
and the underscore.  Python's \w additionally matches non-ASCII word
characters (letters of any script); the embedding models the ASCII fragment
exactly, and the alphabet theorem below is therefore stated for ASCII
inputs, on which the fragment coincides with the full class. -/
def is_word_char (c : Char) : Bool := c.isAlphanum || c = '_'

/-- The ASCII fragment of Python's regex class \s and of the whitespace set
stripped by str.strip: space, tab, newline, carriage return, vertical tab
and form feed. -/
def is_space_char (c : Char) : Bool :=
  c = ' ' || c = '\t' || c = '\n' || c = '\x0d' || c = '\x0b' || c = '\x0c'

/-- Python's regex class \S on the same ASCII fragment. -/
def not_ws (c : Char) : Bool := !is_space_char c

/-- One alternative of a substitution pattern: a literal prefix followed by
one-or-more characters of a class (the shape of every pattern used by
preprocess_text, with an empty prefix for the bare classes). -/
structure ReAlt where
  pre : List Char
  cls : Char → Bool

/-- Length of the match of a single alternative at the head of the input;
0 when the alternative does not match there.  The repeated class is greedy
and must match at least one character. -/
def alt_match_len (a : ReAlt) (l : List Char) : ℕ :=
  if a.pre.isPrefixOf l then
    let t := ((l.drop a.pre.length).takeWhile a.cls).length
    if t = 0 then 0 else a.pre.length + t
  else 0

/-- Length of the match at the head of the input of the first alternative
that matches, alternatives being tried in order as in a regex alternation. -/
def first_match_len (alts : List ReAlt) (l : List Char) : ℕ :=
  match alts with
  | [] => 0
  | a :: rest =>
    let n := alt_match_len a l
    if n = 0 then first_match_len rest l else n

/-- Fuel-driven scanner implementing re.sub(pattern, repl, text) for the
patterns above: at each position, replace the leftmost match and continue
after it, otherwise emit the character and advance by one. -/
def re_sub_go (alts : List ReAlt) (repl : List Char) : ℕ → List Char → List Char
  | 0, _ => []
  | _, [] => []
  | fuel + 1, c :: cs =>
    let n := first_match_len alts (c :: cs)
    if n = 0 then c :: re_sub_go alts repl fuel cs
    else repl ++ re_sub_go alts repl fuel ((c :: cs).drop n)

/-- re.sub(pattern, repl, text): every match consumes at least one character,
so a fuel equal to the length of the input is always sufficient. -/
def re_sub (alts : List ReAlt) (repl : List Char) (l : List Char) : List Char :=
  re_sub_go alts repl l.length l

/-- The alternation http\S+|www\S+|https\S+ of the URL-removal step, in the
order the source writes it. -/
def url_alts : List ReAlt :=
  [⟨("http".toList), not_ws⟩, ⟨("www".toList), not_ws⟩, ⟨("https".toList), not_ws⟩]

/-- Python str.strip(): drop whitespace from both ends. -/
def strip_ws (l : List Char) : List Char :=
  ((l.dropWhile is_space_char).reverse.dropWhile is_space_char).reverse

/-- Body of preprocess_text on an actual string: lowercase, drop URLs,
mentions, hashtags, characters outside \w and \s, digit runs, collapse
whitespace runs to single spaces, and strip.  The regex classes and the
lowercasing are the ASCII fragments of their Unicode counterparts, so the
embedding is character-exact on ASCII text; non-ASCII characters (kept by
Python's Unicode \w when they are word characters) are outside the
fragment. -/
def preprocess_text_str (raw : List Char) : List Char :=
  let t1 := raw.map Char.toLower
  let t2 := re_sub url_alts [] t1
  let t3 := re_sub [⟨('@' :: []), is_word_char⟩] [] t2
  let t4 := re_sub [⟨('#' :: []), is_word_char⟩] [] t3
  let t5 := t4.filter (fun c => is_word_char c || is_space_char c)
  let t6 := re_sub [⟨[], Char.isDigit⟩] [] t5
  let t7 := re_sub [⟨[], is_space_char⟩] (' ' :: []) t6
  strip_ws t7

/-- preprocess_text: a non-string input returns the empty string. -/
def preprocess_text (v : PyVal) : List Char :=
  match v with
  | .str s => preprocess_text_str s
  | _ => []

/-! ## Scoring (enhanced_sentiment_analysis, advanced_sentiment.py lines 62-183) -/

/-- The fixed neutral dictionary returned for degenerate input
(advanced_sentiment.py lines 73-80). -/
def neutral_result : SentimentResult :=
  { compound := 0, positive := 0, negative := 0, neutral := 1,
    subjectivity := Option.none, sentiment := Label.neutral, model := Option.none }

/-- The 0.05 / -0.05 threshold classification used on the blended compound
score (advanced_sentiment.py lines 167-173). -/
def classify (compound : ℚ) : Label :=
  if compound ≥ 5/100 then Label.positive
  else if compound ≤ -(5/100) then Label.negative
  else Label.neutral

/-- The body of the try branch of enhanced_sentiment_analysis (lines 113-152):
the sharpened 0.5/0.5 blend with 0.55 decision thresholds and compound
stretching, labelled distilbert-emulated in the source. -/
def distilbert_emulated (v : VaderScores) (b : BlobSentiment) : SentimentResult :=
  let positive_base := v.pos * (1/2 : ℚ)
  let negative_base := v.neg * (1/2 : ℚ)
  let positive_score :=
    if b.polarity > 0 then positive_base + b.polarity * (1/2 : ℚ) else positive_base
  let negative_score :=
    if b.polarity > 0 then negative_base else negative_base + |b.polarity| * (1/2 : ℚ)
  let neutral_score := 1 - (positive_score + negative_score)
  let sentiment : Label :=
    if positive_score > negative_score ∧ positive_score > 55/100 then Label.positive
    else if negative_score > positive_score ∧ negative_score > 55/100 then Label.negative
    else Label.neutral
  let compound_raw : ℚ :=
    if positive_score > negative_score ∧ positive_score > 55/100 then
      6/10 + (positive_score - 55/100) * 2
    else if negative_score > positive_score ∧ negative_score > 55/100 then
      -(6/10) - (negative_score - 55/100) * 2
    else (positive_score - negative_score) * (1/2 : ℚ)
  let compound_score := max (-1 : ℚ) (min 1 compound_raw)
  { compound := compound_score, positive := positive_score, negative := negative_score,
    neutral := neutral_score, subjectivity := some b.subjectivity,
    sentiment := sentiment, model := some ("distilbert-emulated") }

/-- The body of the except branch of enhanced_sentiment_analysis
(lines 154-183): the canonical 0.7/0.3 blend with 0.05 thresholds, labelled
vader-textblob in the source. -/
def vader_textblob_fallback (v : VaderScores) (b : BlobSentiment) : SentimentResult :=
  let compound_score := v.compound * (7/10 : ℚ) + b.polarity * (3/10 : ℚ)
  { compound := compound_score, positive := v.pos, negative := v.neg, neutral := v.neu,
    subjectivity := some b.subjectivity, sentiment := classify compound_score,
    model := some ("vader-textblob") }

/-- enhanced_sentiment_analysis: degenerate input (falsy or not a string)
returns the fixed neutral dictionary; otherwise the text is preprocessed and
scored by the try branch.  The try branch raises no exception in normal
operation (the requests import succeeds and both local models are total), so
the except branch vader_textblob_fallback is not reached. -/
def enhanced_sentiment_analysis (M : Models) (input : PyVal) : SentimentResult :=
  match input with
  | .str t =>
    if t = [] then neutral_result
    else
      let t' := preprocess_text_str t
      distilbert_emulated (M.vader t') (M.blob t')
  | _ => neutral_result

/-- Number of sentiment-model invocations (sia.polarity_scores plus
TextBlob) performed along the execution path of enhanced_sentiment_analysis
on the given input: the degenerate early return performs none, every other
input reaches the try branch which calls each of the two models once. -/
def enhanced_sentiment_analysis_model_calls (input : PyVal) : ℕ :=
  match input with
  | .str t => if t = [] then 0 else 2
  | _ => 0

/-! ## DataFrame model and get_sentiment_stats (advanced_sentiment.py lines 185-260) -/

/-- A pandas DataFrame modelled column-wise: an ordered association of column
names to cell lists. -/
structure Df where
  cols : List (String × List PyVal)
deriving DecidableEq, Repr

/-- Column names, in order. -/
def Df.names (df : Df) : List String := df.cols.map Prod.fst

/-- Number of rows: the length of the first column (0 for a frame without
columns), matching len(df). -/
def Df.nrows (df : Df) : ℕ :=
  match df.cols with
  | [] => 0
  | (_, vs) :: _ => vs.length

/-- df.empty: true when the frame has no rows. -/
def Df.isEmptyDf (df : Df) : Bool := df.nrows = 0

/-- Values of a column (empty for a missing column). -/
def Df.col (df : Df) (name : String) : List PyVal :=
  (df.cols.lookup name).getD []

/-- Helper for column assignment on the underlying association list:
replace the column in place when the name exists, append it otherwise. -/
def set_col_aux (name : String) (vs : List PyVal) : List (String × List PyVal) → List (String × List PyVal)
  | [] => [(name, vs)]
  | (m, ws) :: rest =>
    if m = name then (name, vs) :: rest else (m, ws) :: set_col_aux name vs rest

/-- Column assignment df[name] = vs, the in-place pandas mutation performed
by get_sentiment_stats. -/
def Df.setCol (df : Df) (name : String) (vs : List PyVal) : Df :=
  ⟨set_col_aux name vs df.cols⟩

/-- String stored in the sentiment column for a label. -/
def label_str (ℓ : Label) : List Char :=
  match ℓ with
  | Label.positive => ("positive".toList)
  | Label.negative => ("negative".toList)
  | Label.neutral => ("neutral".toList)

/-- The statistics dictionary returned by get_sentiment_stats. -/
structure SentimentStats where
  positive_count : ℕ
  negative_count : ℕ
  neutral_count : ℕ
  total_count : ℕ
  positive_pct : ℚ
  negative_pct : ℚ
  neutral_pct : ℚ
  avg_compound : ℚ
  avg_positive : ℚ
  avg_negative : ℚ
  avg_neutral : ℚ
  primary_sentiment : Label
deriving DecidableEq, Repr

/-- The all-zero statistics returned for an empty frame or a missing text
column (advanced_sentiment.py lines 196-210). -/
def zero_stats : SentimentStats :=
  { positive_count := 0, negative_count := 0, neutral_count := 0, total_count := 0,
    positive_pct := 0, negative_pct := 0, neutral_pct := 0,
    avg_compound := 0, avg_positive := 0, avg_negative := 0, avg_neutral := 0,
    primary_sentiment := Label.neutral }

/-- pandas Series.mean over a rational column. -/
def list_mean (l : List ℚ) : ℚ := l.sum / l.length

/-- The majority-vote chain used for primary_sentiment and for the per-source
and overall sentiment of get_sentiment_summary: a label wins only when its
count strictly exceeds both others, otherwise neutral. -/
def primary_of_counts (pos neg neu : ℕ) : Label :=
  if pos > neg ∧ pos > neu then Label.positive
  else if neg > pos ∧ neg > neu then Label.negative
  else Label.neutral

/-- get_sentiment_stats: scores every cell of the text column, assigns the
five result columns into the input frame (the pandas in-place mutation, hence
the returned frame alongside the statistics), and aggregates counts,
percentages and means.  Column assignment does not change the row count, so
total_count = len(df) is the original row count. -/
def get_sentiment_stats (M : Models) (df : Df) (text_column : String) : SentimentStats × Df :=
  if df.isEmptyDf = true ∨ text_column ∉ df.names then (zero_stats, df)
  else
    let sentiments := (df.col text_column).map (enhanced_sentiment_analysis M)
    let sentiment_vals := sentiments.map (fun r => PyVal.str (label_str r.sentiment))
    let df1 := df.setCol ("sentiment") sentiment_vals
    let df2 := df1.setCol ("compound") (sentiments.map (fun r => PyVal.float r.compound))
    let df3 := df2.setCol ("positive") (sentiments.map (fun r => PyVal.float r.positive))
    let df4 := df3.setCol ("negative") (sentiments.map (fun r => PyVal.float r.negative))
    let df5 := df4.setCol ("neutral") (sentiments.map (fun r => PyVal.float r.neutral))
    let total_count := df.nrows
    let positive_count := sentiment_vals.count (PyVal.str (label_str Label.positive))
    let negative_count := sentiment_vals.count (PyVal.str (label_str Label.negative))
    let neutral_count := sentiment_vals.count (PyVal.str (label_str Label.neutral))
    let positive_pct : ℚ := if total_count > 0 then ((positive_count : ℚ) / (total_count : ℚ)) * 100 else 0
    let negative_pct : ℚ := if total_count > 0 then ((negative_count : ℚ) / (total_count : ℚ)) * 100 else 0
    let neutral_pct : ℚ := if total_count > 0 then ((neutral_count : ℚ) / (total_count : ℚ)) * 100 else 0
    let avg_compound := list_mean (sentiments.map (fun r => r.compound))
    let avg_positive := list_mean (sentiments.map (fun r => r.positive))
    let avg_negative := list_mean (sentiments.map (fun r => r.negative))
    let avg_neutral := list_mean (sentiments.map (fun r => r.neutral))
    ({ positive_count := positive_count, negative_count := negative_count,
       neutral_count := neutral_count, total_count := total_count,
       positive_pct := positive_pct, negative_pct := negative_pct, neutral_pct := neutral_pct,
       avg_compound := avg_compound, avg_positive := avg_positive,
       avg_negative := avg_negative, avg_neutral := avg_neutral,
       primary_sentiment := primary_of_counts positive_count negative_count neutral_count },
     df5)

/-! ## get_sentiment_summary (sentiment_analysis.py lines 312-410) -/

/-- The summary dictionary returned by get_sentiment_summary. -/
structure SentimentSummary where
  overall_sentiment : Label
  news_sentiment : Label
  social_sentiment : Label
  news_count : ℕ
  tweets_count : ℕ
  positive_pct : ℚ
  negative_pct : ℚ
  neutral_pct : ℚ
  errors : List String
deriving DecidableEq, Repr

/-- get_sentiment_summary over the label columns of the fetched news and
tweet frames (the fetch itself is the out-of-scope collaborator; an error
string stands for a non-empty error return).  Counts, percentages and the
three majority labels follow sentiment_analysis.py lines 326-410; the
combined list concatenates whatever sources were non-empty, which equals the
plain concatenation since an empty source contributes nothing. -/
def get_sentiment_summary (news_sentiments tweet_sentiments : List Label)
    (news_error tweets_error : Option String) : SentimentSummary :=
  let errors :=
    (match news_error with
     | some e => [("News error: ") ++ e]
     | Option.none => []) ++
    (match tweets_error with
     | some e => [("Social media error: ") ++ e]
     | Option.none => [])
  let news_count := if news_sentiments ≠ [] then news_sentiments.length else 0
  let news_sentiment :=
    if news_sentiments ≠ [] then
      primary_of_counts (news_sentiments.count Label.positive)
        (news_sentiments.count Label.negative) (news_sentiments.count Label.neutral)
    else Label.neutral
  let tweets_count := if tweet_sentiments ≠ [] then tweet_sentiments.length else 0
  let social_sentiment :=
    if tweet_sentiments ≠ [] then
      primary_of_counts (tweet_sentiments.count Label.positive)
        (tweet_sentiments.count Label.negative) (tweet_sentiments.count Label.neutral)
    else Label.neutral
  let total_items := news_count + tweets_count
  let all_sentiments := news_sentiments ++ tweet_sentiments
  let positive_count := all_sentiments.count Label.positive
  let negative_count := all_sentiments.count Label.negative
  let neutral_count := all_sentiments.count Label.neutral
  let positive_pct : ℚ := if total_items > 0 then ((positive_count : ℚ) / (total_items : ℚ)) * 100 else 0
  let negative_pct : ℚ := if total_items > 0 then ((negative_count : ℚ) / (total_items : ℚ)) * 100 else 0
  let neutral_pct : ℚ := if total_items > 0 then ((neutral_count : ℚ) / (total_items : ℚ)) * 100 else 0
  let overall_sentiment :=
    if total_items > 0 then primary_of_counts positive_count negative_count neutral_count
    else Label.neutral
  { overall_sentiment := overall_sentiment, news_sentiment := news_sentiment,
    social_sentiment := social_sentiment, news_count := news_count,
    tweets_count := tweets_count, positive_pct := positive_pct,
    negative_pct := negative_pct, neutral_pct := neutral_pct, errors := errors }

/-! ## Synthetic tweet generation (get_stock_tweets, sentiment_analysis.py lines 225-309) -/

/-- One news row as consumed by the tweet generator: a title and a publish
time, the latter modelled in minutes as an integer. -/
structure NewsRow where
  title : List Char
  date : ℤ
deriving DecidableEq, Repr

/-- The random draws consumed for one news row: the three timestamp jitters
(minutes), the prefix and suffix phrase choices, and the three engagement
pairs.  They are taken as parameters so every theorem holds for every 
possible draw. -/
structure TweetRand where
  off0 : ℕ
  off1 : ℕ
  off2 : ℕ
  prefix_choice : Fin 10
  suffix_choice : Fin 8
  retweets0 : ℕ
  retweets1 : ℕ
  retweets2 : ℕ
  likes0 : ℕ
  likes1 : ℕ
  likes2 : ℕ
deriving DecidableEq, Repr

/-- One generated tweet row. -/
structure Tweet where
  text : List Char
  date : ℤ
  sentiment : Label
  compound : ℚ
  retweets : ℕ
  likes : ℕ
deriving DecidableEq, Repr

/-- The fixed prefix phrase candidates (prefix_options in the source). -/
def prefix_options : List (List Char) :=
  [("Just read that".toList), ("Interesting news:".toList), ("Looks like".toList),
   ("Market update:".toList), ("Breaking:".toList), ("FYI:".toList),
   ("Did you hear that".toList), ("Wow!".toList), ("Investors note:".toList),
   ("Just in:".toList)]

/-- The fixed suffix phrase candidates (suffix_options in the source). -/
def suffix_options : List (List Char) :=
  [("Thoughts?".toList), ("What do you think?".toList), ("Good news?".toList),
   ("How will this affect the market?".toList), ("Will this impact the stock?".toList),
   ("Big if true!".toList), ("Anyone following this?".toList), ("Bullish or bearish?".toList)]

/-- The three tweets generated from one news row: the hashtag-tagged base
tweet, the prefix variant and the question-suffix variant, each re-scored
independently and with its own jittered timestamp and engagement counts. -/
def tweets_of_row (M : Models) (ticker : List Char) (row : NewsRow) (r : TweetRand) : List Tweet :=
  let tag := ' ' :: '#' :: ticker.filter (fun c => c ≠ '.')
  let tweet_text := row.title ++ tag
  let s0 := enhanced_sentiment_analysis M (PyVal.str tweet_text)
  let variation1 := (prefix_options.get r.prefix_choice) ++ ' ' :: row.title ++ tag
  let s1 := enhanced_sentiment_analysis M (PyVal.str variation1)
  let variation2 := row.title ++ ' ' :: (suffix_options.get r.suffix_choice) ++ tag
  let s2 := enhanced_sentiment_analysis M (PyVal.str variation2)
  [{ text := tweet_text, date := row.date - r.off0, sentiment := s0.sentiment,
     compound := s0.compound, retweets := r.retweets0, likes := r.likes0 },
   { text := variation1, date := row.date - r.off1, sentiment := s1.sentiment,
     compound := s1.compound, retweets := r.retweets1, likes := r.likes1 },
   { text := variation2, date := row.date - r.off2, sentiment := s2.sentiment,
     compound := s2.compound, retweets := r.retweets2, likes := r.likes2 }]

/-- Insert a tweet into a list sorted by date descending, keeping it sorted. -/
def insert_by_date_desc (t : Tweet) : List Tweet → List Tweet
  | [] => [t]
  | u :: us => if u.date ≤ t.date then t :: u :: us else u :: insert_by_date_desc t us

/-- tweets_df.sort_values('date', ascending=False), modelled by insertion
sort into descending date order. -/
def sort_by_date_desc (l : List Tweet) : List Tweet :=
  l.foldr insert_by_date_desc []

/-- get_stock_tweets after the news fetch: an upstream error or an empty news
frame short-circuits with an error message, otherwise three tweets per news
row are generated, sorted by date descending and truncated to max_tweets. -/
def get_stock_tweets (M : Models) (ticker : List Char) (max_tweets : ℕ)
    (news : Except String (List (NewsRow × TweetRand))) : Except String (List Tweet) :=
  match news with
  | .error e => .error e
  | .ok rows =>
    if rows = [] then .error ("No news found to generate tweet data.")
    else
      let tweets := rows.flatMap (fun p => tweets_of_row M ticker p.1 p.2)
      let tweets_df := sort_by_date_desc tweets
      .ok (tweets_df.take max_tweets)

/-! ## Majority-vote specification -/

/-- Count of a given label among the three counters. -/
def label_count (pos neg neu : ℕ) : Label → ℕ
  | Label.positive => pos
  | Label.negative => neg
  | Label.neutral => neu

/-- Specification-side majority rule: the chosen label either strictly beats
both other labels, or ties leave no strict winner (every label is equalled or
beaten by another one) and the choice is neutral. -/
def IsMajorityChoice (pos neg neu : ℕ) (choice : Label) : Prop :=
  (∀ m : Label, m ≠ choice → label_count pos neg neu m < label_count pos neg neu choice) ∨
  (choice = Label.neutral ∧
    ∀ u : Label, ∃ m : Label, m ≠ u ∧
      label_count pos neg neu u ≤ label_count pos neg neu m)

/-! ## Range predicates and concrete model instances used by the theorems -/

/-- Documented output ranges of the two models: VADER's pos and neg scores
lie in [0, 1] and TextBlob's polarity lies in [-1, 1]. -/
def valid_model_ranges (M : Models) : Prop :=
  ∀ s : List Char,
    0 ≤ (M.vader s).pos ∧ (M.vader s).pos ≤ 1 ∧
    0 ≤ (M.vader s).neg ∧ (M.vader s).neg ≤ 1 ∧
    -1 ≤ (M.blob s).polarity ∧ (M.blob s).polarity ≤ 1

/-- The three disjoint compound bands realised by the scorer: a positive
label comes with a compound in (0.6, 1], a negative label with a compound in
[-1, -0.6), and a neutral label with a compound in [-0.275, 0.275]. -/
def InCompoundBands (r : SentimentResult) : Prop :=
  (r.sentiment = Label.positive → 3/5 < r.compound ∧ r.compound ≤ 1) ∧
  (r.sentiment = Label.negative → -1 ≤ r.compound ∧ r.compound < -(3/5)) ∧
  (r.sentiment = Label.neutral → -(11/40) ≤ r.compound ∧ r.compound ≤ 11/40)

/-- A concrete model instance answering all-neutral scores on every text,
used to instantiate witnesses. -/
def const_neutral_models : Models :=
  ⟨fun _ => ⟨0, 0, 1, 0⟩, fun _ => ⟨0, 0⟩⟩

/-- A concrete model instance on which the sharpened blend of the try branch
visibly differs from the canonical 0.7/0.3 blend. -/
def sharp_example_models : Models :=
  ⟨fun _ => ⟨4/5, 0, 1/5, 9/10⟩, fun _ => ⟨1/2, 0⟩⟩

/-- A concrete one-column DataFrame used to exhibit the in-place column
assignment of get_sentiment_stats. -/
def df_example : Df :=
  ⟨[(("text" : String), [PyVal.str ("hi".toList)])]⟩

/-- A concrete news row used to instantiate the tweet-generator witness. -/
def example_news_row : NewsRow :=
  { title := ("a".toList), date := 1000 }

/-- A concrete record of random draws with all jitters and engagements 0. -/
def example_rand : TweetRand :=
  { off0 := 0, off1 := 0, off2 := 0, prefix_choice := 0, suffix_choice := 0,
    retweets0 := 0, retweets1 := 0, retweets2 := 0,
    likes0 := 0, likes1 := 0, likes2 := 0 }

lemma primary_of_counts_majority (pos neg neu : ℕ) :
    IsMajorityChoice pos neg neu (primary_of_counts pos neg neu) := by
  unfold primary_of_counts IsMajorityChoice
  split_ifs with h1 h2
  · left
    intro m hm
    cases m
    · exact absurd rfl hm
    · simpa [label_count] using h1.1
    · simpa [label_count] using h1.2
  · left
    intro m hm
    cases m
    · simpa [label_count] using h2.1
    · exact absurd rfl hm
    · simpa [label_count] using h2.2
  · by_cases h3 : neu > pos ∧ neu > neg
    · left
      intro m hm
      cases m
      · simpa [label_count] using h3.1
      · simpa [label_count] using h3.2
      · exact absurd rfl hm
    · right
      refine ⟨rfl, ?_⟩
      intro u
      cases u
      · have h : pos ≤ neg ∨ pos ≤ neu := by omega
        rcases h with h | h
        · exact ⟨Label.negative, by simp, by simpa [label_count]⟩
        · exact ⟨Label.neutral, by simp, by simpa [label_count]⟩
      · have h : neg ≤ pos ∨ neg ≤ neu := by omega
        rcases h with h | h
        · exact ⟨Label.positive, by simp, by simpa [label_count]⟩
        · exact ⟨Label.neutral, by simp, by simpa [label_count]⟩
      · have h : neu ≤ pos ∨ neu ≤ neg := by omega
        rcases h with h | h
        · exact ⟨Label.positive, by simp, by simpa [label_count]⟩
        · exact ⟨Label.negative, by simp, by simpa [label_count]⟩

/-! ## C4: the threshold classifier -/

/-- C4: classify is a total function mapping every rational compound to
exactly one label, threshold-exact at the fixed constants: compound at least
0.05 yields positive, at most -0.05 yields negative, everything strictly in
between yields neutral, with the stated boundary values. -/
theorem classify_total_threshold_exact :
    (∀ c : ℚ, 5/100 ≤ c → classify c = Label.positive) ∧
    (∀ c : ℚ, c ≤ -(5/100) → classify c = Label.negative) ∧
    (∀ c : ℚ, -(5/100) < c → c < 5/100 → classify c = Label.neutral) ∧
    classify (5/100) = Label.positive ∧
    classify (499/10000) = Label.neutral ∧
    classify (-(5/100)) = Label.negative ∧
    classify (-(499/10000)) = Label.neutral := by
  refine ⟨?_, ?_, ?_, ?_, ?_, ?_, ?_⟩
  · intro c h
    unfold classify
    rw [if_pos h]
  · intro c h
    unfold classify
    rw [if_neg (by simp only [ge_iff_le, not_le]; linarith), if_pos h]
  · intro c h1 h2
    unfold classify
    rw [if_neg (by simp only [ge_iff_le, not_le]; linarith),
      if_neg (by simp only [not_le]; linarith)]
  · unfold classify
    rw [if_pos (by norm_num)]
  · unfold classify
    rw [if_neg (by norm_num), if_neg (by norm_num)]
  · unfold classify
    rw [if_neg (by norm_num), if_pos (by norm_num)]
  · unfold classify
    rw [if_neg (by norm_num), if_neg (by norm_num)]

/-- Witness for C4 at concrete compounds. -/
theorem classify_total_threshold_exact_witness :
    classify (7/100) = Label.positive ∧ classify (-(7/100)) = Label.negative ∧
    classify 0 = Label.neutral :=
  ⟨classify_total_threshold_exact.1 (7/100) (by norm_num),
   classify_total_threshold_exact.2.1 (-(7/100)) (by norm_num),
   classify_total_threshold_exact.2.2.1 0 (by norm_num) (by norm_num)⟩

/-! ## C5: percentages and majority labels of get_sentiment_summary -/

lemma ne_nil_length (l : List Label) : (if l ≠ [] then l.length else 0) = l.length := by
  by_cases h : l = [] <;> simp [h]

lemma if_primary (l : List Label) :
    (if l ≠ [] then
      primary_of_counts (l.count Label.positive) (l.count Label.negative) (l.count Label.neutral)
    else Label.neutral) =
      primary_of_counts (l.count Label.positive) (l.count Label.negative)
        (l.count Label.neutral) := by
  by_cases h : l = []
  · subst h
    simp [primary_of_counts]
  · simp [h]

lemma get_sentiment_summary_eq (news tweets : List Label) (ne te : Option String) :
    get_sentiment_summary news tweets ne te =
      { overall_sentiment :=
          if 0 < (news ++ tweets).length then
            primary_of_counts ((news ++ tweets).count Label.positive)
              ((news ++ tweets).count Label.negative) ((news ++ tweets).count Label.neutral)
          else Label.neutral,
        news_sentiment :=
          primary_of_counts (news.count Label.positive) (news.count Label.negative)
            (news.count Label.neutral),
        social_sentiment :=
          primary_of_counts (tweets.count Label.positive) (tweets.count Label.negative)
            (tweets.count Label.neutral),
        news_count := news.length,
        tweets_count := tweets.length,
        positive_pct :=
          if 0 < (news ++ tweets).length then
            (((news ++ tweets).count Label.positive : ℚ) / ((news ++ tweets).length : ℚ)) * 100
          else 0,
        negative_pct :=
          if 0 < (news ++ tweets).length then
            (((news ++ tweets).count Label.negative : ℚ) / ((news ++ tweets).length : ℚ)) * 100
          else 0,
        neutral_pct :=
          if 0 < (news ++ tweets).length then
            (((news ++ tweets).count Label.neutral : ℚ) / ((news ++ tweets).length : ℚ)) * 100
          else 0,
        errors :=
          (match ne with
           | some e => [("News error: ") ++ e]
           | Option.none => []) ++
          (match te with
           | some e => [("Social media error: ") ++ e]
           | Option.none => []) } := by
  unfold get_sentiment_summary
  simp only [ne_nil_length, if_primary, ← List.length_append]

/-- C5: for every pair of source collections, each combined percentage equals
100 * count / total (exactly, in rational arithmetic), each per-source
primary label and the overall primary label is the strict-majority label with
ties resolving to neutral, and a total of 0 gives all-zero percentages and a
neutral overall label. -/
theorem summarize_percentages_and_majority :
    ∀ (news tweets : List Label) (ne te : Option String),
      ((get_sentiment_summary news tweets ne te).positive_pct =
          100 * ((news ++ tweets).count Label.positive : ℚ) / ((news ++ tweets).length : ℚ) ∧
        (get_sentiment_summary news tweets ne te).negative_pct =
          100 * ((news ++ tweets).count Label.negative : ℚ) / ((news ++ tweets).length : ℚ) ∧
        (get_sentiment_summary news tweets ne te).neutral_pct =
          100 * ((news ++ tweets).count Label.neutral : ℚ) / ((news ++ tweets).length : ℚ)) ∧
      IsMajorityChoice (news.count Label.positive) (news.count Label.negative)
        (news.count Label.neutral) (get_sentiment_summary news tweets ne te).news_sentiment ∧
      IsMajorityChoice (tweets.count Label.positive) (tweets.count Label.negative)
        (tweets.count Label.neutral) (get_sentiment_summary news tweets ne te).social_sentiment ∧
      IsMajorityChoice ((news ++ tweets).count Label.positive)
        ((news ++ tweets).count Label.negative) ((news ++ tweets).count Label.neutral)
        (get_sentiment_summary news tweets ne te).overall_sentiment ∧
      ((news ++ tweets).length = 0 →
        (get_sentiment_summary news tweets ne te).positive_pct = 0 ∧
        (get_sentiment_summary news tweets ne te).negative_pct = 0 ∧
        (get_sentiment_summary news tweets ne te).neutral_pct = 0 ∧
        (get_sentiment_summary news tweets ne te).overall_sentiment = Label.neutral) := by
  intro news tweets ne te
  rw [get_sentiment_summary_eq]
  refine ⟨⟨?_, ?_, ?_⟩, ?_, ?_, ?_, ?_⟩
  · dsimp only
    by_cases h : 0 < (news ++ tweets).length
    · rw [if_pos h]
      ring
    · rw [if_neg h]
      have hl : (news ++ tweets).length = 0 := by omega
      rw [hl]
      simp
  · dsimp only
    by_cases h : 0 < (news ++ tweets).length
    · rw [if_pos h]
      ring
    · rw [if_neg h]
      have hl : (news ++ tweets).length = 0 := by omega
      rw [hl]
      simp
  · dsimp only
    by_cases h : 0 < (news ++ tweets).length
    · rw [if_pos h]
      ring
    · rw [if_neg h]
      have hl : (news ++ tweets).length = 0 := by omega
      rw [hl]
      simp
  · exact primary_of_counts_majority _ _ _
  · exact primary_of_counts_majority _ _ _
  · dsimp only
    by_cases h : 0 < (news ++ tweets).length
    · rw [if_pos h]
      exact primary_of_counts_majority _ _ _
    · rw [if_neg h]
      have hl : news ++ tweets = [] := by
        rw [← List.length_eq_zero]
        omega
      rw [hl]
      simpa [primary_of_counts] using primary_of_counts_majority 0 0 0
  · intro h0
    dsimp only
    rw [if_neg (by omega), if_neg (by omega), if_neg (by omega), if_neg (by omega)]
    exact ⟨rfl, rfl, rfl, rfl⟩

/-- Witness for C5 at a concrete pair of collections, including the zero
total case. -/
theorem summarize_percentages_and_majority_witness :
    IsMajorityChoice (([Label.positive, Label.positive, Label.negative] : List Label).count
        Label.positive)
      (([Label.positive, Label.positive, Label.negative] : List Label).count Label.negative)
      (([Label.positive, Label.positive, Label.negative] : List Label).count Label.neutral)
      (get_sentiment_summary [Label.positive, Label.positive, Label.negative] [] Option.none
          Option.none).news_sentiment ∧
    (get_sentiment_summary [] [] Option.none Option.none).overall_sentiment = Label.neutral :=
  ⟨(summarize_percentages_and_majority _ _ _ _).2.1,
   ((summarize_percentages_and_majority [] [] Option.none Option.none).2.2.2.2 rfl).2.2.2⟩

/-! ## C7: order independence of the aggregations -/

/-- C7: both aggregators are order-independent: permuting the scored items
of each source collection leaves every count, every percentage, every mean
and every primary label of get_sentiment_summary and of the statistics
record of get_sentiment_stats unchanged. -/
theorem summarize_order_independent :
    (∀ (n₁ n₂ t₁ t₂ : List Label) (ne te : Option String),
      n₁.Perm n₂ → t₁.Perm t₂ →
      get_sentiment_summary n₁ t₁ ne te = get_sentiment_summary n₂ t₂ ne te) ∧
    (∀ (M : Models) (df₁ df₂ : Df) (c : String),
      df₁.nrows = df₂.nrows → (df₁.col c).Perm (df₂.col c) →
      (c ∈ df₁.names ↔ c ∈ df₂.names) →
      (get_sentiment_stats M df₁ c).1 = (get_sentiment_stats M df₂ c).1) := by
  constructor
  · intro n₁ n₂ t₁ t₂ ne te hn ht
    have hna : (n₁ ++ t₁).Perm (n₂ ++ t₂) := hn.append ht
    rw [get_sentiment_summary_eq, get_sentiment_summary_eq]
    simp only [hn.count_eq, ht.count_eq, hna.count_eq, hn.length_eq, ht.length_eq,
      hna.length_eq]
  · intro M df₁ df₂ c h_rows h_col h_names
    have hE : df₁.isEmptyDf = df₂.isEmptyDf := by
      unfold Df.isEmptyDf
      rw [h_rows]
    unfold get_sentiment_stats
    by_cases hdeg : df₁.isEmptyDf = true ∨ c ∉ df₁.names
    · have hdeg₂ : df₂.isEmptyDf = true ∨ c ∉ df₂.names := by
        rcases hdeg with h | h
        · exact Or.inl (hE ▸ h)
        · exact Or.inr (fun hc => h (h_names.mpr hc))
      rw [if_pos hdeg, if_pos hdeg₂]
    · have hdeg₂ : ¬(df₂.isEmptyDf = true ∨ c ∉ df₂.names) := by
        rcases not_or.mp hdeg with ⟨h1, h2⟩
        exact not_or.mpr ⟨hE ▸ h1, fun hc => hc (h_names.mp (not_not.mp h2))⟩
      rw [if_neg hdeg, if_neg hdeg₂]
      dsimp only
      have hv : ((df₁.col c).map (enhanced_sentiment_analysis M)).Perm
          ((df₂.col c).map (enhanced_sentiment_analysis M)) := h_col.map _
      have hlab := hv.map (fun r => PyVal.str (label_str r.sentiment))
      have hcpos := hlab.count_eq (PyVal.str (label_str Label.positive))
      have hcneg := hlab.count_eq (PyVal.str (label_str Label.negative))
      have hcneu := hlab.count_eq (PyVal.str (label_str Label.neutral))
      simp only [SentimentStats.mk.injEq]
      refine ⟨hcpos, hcneg, hcneu, h_rows, ?_, ?_, ?_, ?_, ?_, ?_, ?_, ?_⟩
      · rw [hcpos, h_rows]
      · rw [hcneg, h_rows]
      · rw [hcneu, h_rows]
      · unfold list_mean
        rw [(hv.map (fun r => r.compound)).sum_eq, (hv.map (fun r => r.compound)).length_eq]
      · unfold list_mean
        rw [(hv.map (fun r => r.positive)).sum_eq, (hv.map (fun r => r.positive)).length_eq]
      · unfold list_mean
        rw [(hv.map (fun r => r.negative)).sum_eq, (hv.map (fun r => r.negative)).length_eq]
      · unfold list_mean
        rw [(hv.map (fun r => r.neutral)).sum_eq, (hv.map (fun r => r.neutral)).length_eq]
      · rw [hcpos, hcneg, hcneu]

/-- Witness for C7 at a concrete permuted collection and a concrete permuted
DataFrame column. -/
theorem summarize_order_independent_witness :
    get_sentiment_summary [Label.positive, Label.negative] [] Option.none Option.none =
      get_sentiment_summary [Label.negative, Label.positive] [] Option.none Option.none ∧
    (get_sentiment_stats const_neutral_models
        ⟨[(("text" : String), [PyVal.str ("a".toList), PyVal.str ("b".toList)])]⟩ ("text")).1 =
      (get_sentiment_stats const_neutral_models
        ⟨[(("text" : String), [PyVal.str ("b".toList), PyVal.str ("a".toList)])]⟩ ("text")).1 :=
  ⟨summarize_order_independent.1 _ _ _ _ Option.none Option.none (by decide) (by decide),
   summarize_order_independent.2 const_neutral_models _ _ ("text") rfl (by decide) (by decide)⟩

/-! ## C6: the synthetic tweet generator is bounded and sorted -/

lemma mem_insert_by_date_desc {t u : Tweet} :
    ∀ {l : List Tweet}, u ∈ insert_by_date_desc t l ↔ u = t ∨ u ∈ l := by
  intro l
  induction l with
  | nil => simp [insert_by_date_desc]
  | cons v vs ih =>
    unfold insert_by_date_desc
    split_ifs with h
    · simp [List.mem_cons]
    · simp only [List.mem_cons, ih]
      tauto

lemma pairwise_insert_by_date_desc {t : Tweet} :
    ∀ {l : List Tweet}, l.Pairwise (fun a b => b.date ≤ a.date) →
      (insert_by_date_desc t l).Pairwise (fun a b => b.date ≤ a.date) := by
  intro l
  induction l with
  | nil =>
    intro _
    simp [insert_by_date_desc]
  | cons v vs ih =>
    intro h
    rcases List.pairwise_cons.mp h with ⟨hv, hvs⟩
    unfold insert_by_date_desc
    split_ifs with hle
    · refine List.pairwise_cons.mpr ⟨?_, h⟩
      intro b hb
      rcases List.mem_cons.mp hb with rfl | hb
      · exact hle
      · exact le_trans (hv b hb) hle
    · refine List.pairwise_cons.mpr ⟨?_, ih hvs⟩
      intro b hb
      rcases mem_insert_by_date_desc.mp hb with rfl | hb
      · exact le_of_lt (lt_of_not_le hle)
      · exact hv b hb

lemma sorted_sort_by_date_desc (l : List Tweet) :
    (sort_by_date_desc l).Pairwise (fun a b => b.date ≤ a.date) := by
  unfold sort_by_date_desc
  induction l with
  | nil => simp
  | cons t ts ih => exact pairwise_insert_by_date_desc ih

/-- C6: whenever the synthetic tweet generator succeeds, it returns at most
max_tweets items, and the returned sequence is sorted by timestamp in
descending order (the generated collection is sorted descending before the
truncation). -/
theorem get_stock_tweets_bounded_and_sorted :
    ∀ (M : Models) (ticker : List Char) (max_tweets : ℕ)
      (news : Except String (List (NewsRow × TweetRand))) (l : List Tweet),
      get_stock_tweets M ticker max_tweets news = Except.ok l →
      l.length ≤ max_tweets ∧ l.Pairwise (fun a b => b.date ≤ a.date) := by
  intro M ticker mt news l h
  unfold get_stock_tweets at h
  split at h
  · exact absurd h (by simp)
  · split_ifs at h with hr
    simp only [Except.ok.injEq] at h
    subst h
    exact ⟨List.length_take_le _ _,
      List.Pairwise.sublist (List.take_sublist _ _) (sorted_sort_by_date_desc _)⟩

/-- Witness for C6 at a concrete single news row with all jitters zero. -/
theorem get_stock_tweets_bounded_and_sorted_witness :
    ∃ l : List Tweet,
      get_stock_tweets const_neutral_models ("X".toList) 1
          (Except.ok [(example_news_row, example_rand)]) = Except.ok l ∧
      l.length ≤ 1 ∧ l.Pairwise (fun a b => b.date ≤ a.date) := by
  have h : get_stock_tweets const_neutral_models ("X".toList) 1
      (Except.ok [(example_news_row, example_rand)]) =
      Except.ok ((sort_by_date_desc
        (([(example_news_row, example_rand)]).flatMap
          (fun p => tweets_of_row const_neutral_models ("X".toList) p.1 p.2))).take 1) := by
    unfold get_stock_tweets
    dsimp only
    rw [if_neg (by simp)]
  exact ⟨_, h, (get_stock_tweets_bounded_and_sorted _ _ _ _ _ h).1,
    (get_stock_tweets_bounded_and_sorted _ _ _ _ _ h).2⟩

/-! ## Compound bands of the sharpened blend (C1, C3, C10) -/

lemma distilbert_compound_bands (v : VaderScores) (b : BlobSentiment)
    (hp0 : 0 ≤ v.pos) (hp1 : v.pos ≤ 1) (hn0 : 0 ≤ v.neg) (hn1 : v.neg ≤ 1)
    (hb0 : -1 ≤ b.polarity) (hb1 : b.polarity ≤ 1) :
    InCompoundBands (distilbert_emulated v b) := by
  unfold InCompoundBands distilbert_emulated
  dsimp only
  split_ifs with hpol h1 h2 h1 h2
  · refine ⟨fun _ => ⟨?_, ?_⟩, fun hs => absurd hs (by decide), fun hs => absurd hs (by decide)⟩
    · exact lt_of_lt_of_le (lt_min (by norm_num) (by linarith [h1.2])) (le_max_right _ _)
    · exact max_le (by norm_num) (min_le_left _ _)
  · refine ⟨fun hs => absurd hs (by decide), fun _ => ⟨?_, ?_⟩, fun hs => absurd hs (by decide)⟩
    · exact le_max_left _ _
    · have hraw : -(6/10) - ((v.neg * (1/2) : ℚ) - 55/100) * 2 < -(3/5) := by
        linarith [h2.2]
      calc max (-1 : ℚ) (min 1 (-(6/10) - (v.neg * (1/2) - 55/100) * 2))
          = max (-1 : ℚ) (-(6/10) - (v.neg * (1/2) - 55/100) * 2) := by
            rw [min_eq_right (by linarith)]
        _ < -(3/5) := max_lt (by norm_num) hraw
  · refine ⟨fun hs => absurd hs (by decide), fun hs => absurd hs (by decide), fun _ => ?_⟩
    have hps0 : (0 : ℚ) ≤ v.pos * (1/2) + b.polarity * (1/2) := by linarith
    have hns0 : (0 : ℚ) ≤ v.neg * (1/2) := by linarith
    have hup : (v.pos * (1/2) + b.polarity * (1/2) : ℚ) - v.neg * (1/2) ≤ 55/100 := by
      rcases le_or_lt (v.pos * (1/2) + b.polarity * (1/2) : ℚ) (v.neg * (1/2)) with hc | hc
      · linarith
      · have hps : (v.pos * (1/2) + b.polarity * (1/2) : ℚ) ≤ 55/100 := by
          by_contra hq
          exact h1 ⟨hc, lt_of_not_le hq⟩
        linarith
    have hlo : (-(55/100) : ℚ) ≤ v.pos * (1/2) + b.polarity * (1/2) - v.neg * (1/2) := by
      rcases le_or_lt (v.neg * (1/2) : ℚ) (v.pos * (1/2) + b.polarity * (1/2)) with hc | hc
      · linarith
      · have hns : (v.neg * (1/2) : ℚ) ≤ 55/100 := by
          by_contra hq
          exact h2 ⟨hc, lt_of_not_le hq⟩
        linarith
    rw [min_eq_right (by linarith), max_eq_right (by linarith)]
    constructor <;> linarith
  · refine ⟨fun _ => ⟨?_, ?_⟩, fun hs => absurd hs (by decide), fun hs => absurd hs (by decide)⟩
    · exact lt_of_lt_of_le (lt_min (by norm_num) (by linarith [h1.2])) (le_max_right _ _)
    · exact max_le (by norm_num) (min_le_left _ _)
  · rw [abs_of_nonpos (le_of_not_lt hpol)] at h1 h2 ⊢
    refine ⟨fun hs => absurd hs (by decide), fun _ => ⟨?_, ?_⟩, fun hs => absurd hs (by decide)⟩
    · exact le_max_left _ _
    · have hraw : -(6/10) - ((v.neg * (1/2) + -b.polarity * (1/2) : ℚ) - 55/100) * 2 < -(3/5) := by
        linarith [h2.2]
      calc max (-1 : ℚ) (min 1 (-(6/10) - ((v.neg * (1/2) + -b.polarity * (1/2)) - 55/100) * 2))
          = max (-1 : ℚ) (-(6/10) - ((v.neg * (1/2) + -b.polarity * (1/2)) - 55/100) * 2) := by
            rw [min_eq_right (by linarith)]
        _ < -(3/5) := max_lt (by norm_num) hraw
  · rw [abs_of_nonpos (le_of_not_lt hpol)] at h1 h2 ⊢
    refine ⟨fun hs => absurd hs (by decide), fun hs => absurd hs (by decide), fun _ => ?_⟩
    have hpolz : b.polarity ≤ 0 := le_of_not_lt hpol
    have hps0 : (0 : ℚ) ≤ v.pos * (1/2) := by linarith
    have hns0 : (0 : ℚ) ≤ v.neg * (1/2) + -b.polarity * (1/2) := by linarith
    have hup : (v.pos * (1/2) : ℚ) - (v.neg * (1/2) + -b.polarity * (1/2)) ≤ 55/100 := by
      rcases le_or_lt (v.pos * (1/2) : ℚ) (v.neg * (1/2) + -b.polarity * (1/2)) with hc | hc
      · linarith
      · have hps : (v.pos * (1/2) : ℚ) ≤ 55/100 := by
          by_contra hq
          exact h1 ⟨hc, lt_of_not_le hq⟩
        linarith
    have hlo : (-(55/100) : ℚ) ≤ v.pos * (1/2) - (v.neg * (1/2) + -b.polarity * (1/2)) := by
      rcases le_or_lt (v.neg * (1/2) + -b.polarity * (1/2) : ℚ) (v.pos * (1/2)) with hc | hc
      · linarith
      · have hns : (v.neg * (1/2) + -b.polarity * (1/2) : ℚ) ≤ 55/100 := by
          by_contra hq
          exact h2 ⟨hc, lt_of_not_le hq⟩
        linarith
    rw [min_eq_right (by linarith), max_eq_right (by linarith)]
    constructor <;> linarith

lemma neutral_result_in_bands : InCompoundBands neutral_result := by
  refine ⟨fun hs => absurd hs (by decide), fun hs => absurd hs (by decide), fun _ => ?_⟩
  constructor <;> norm_num [neutral_result]

lemma enhanced_in_bands (M : Models) (hM : valid_model_ranges M) (i : PyVal) :
    InCompoundBands (enhanced_sentiment_analysis M i) := by
  cases i with
  | str t =>
    unfold enhanced_sentiment_analysis
    dsimp only
    split_ifs with ht
    · exact neutral_result_in_bands
    · rcases hM (preprocess_text_str t) with ⟨a, b, c, d, e, f⟩
      exact distilbert_compound_bands _ _ a b c d e f
  | float q => exact neutral_result_in_bands
  | int z => exact neutral_result_in_bands
  | bool b => exact neutral_result_in_bands
  | none => exact neutral_result_in_bands

lemma bands_label_inj {r₁ r₂ : SentimentResult} (h₁ : InCompoundBands r₁)
    (h₂ : InCompoundBands r₂) (hc : r₁.compound = r₂.compound) :
    r₁.sentiment = r₂.sentiment := by
  rcases h₁ with ⟨p₁, n₁, z₁⟩
  rcases h₂ with ⟨p₂, n₂, z₂⟩
  cases hs₁ : r₁.sentiment <;> cases hs₂ : r₂.sentiment <;> try rfl
  · rcases p₁ hs₁ with ⟨a1, a2⟩
    rcases n₂ hs₂ with ⟨b1, b2⟩
    exfalso
    linarith
  · rcases p₁ hs₁ with ⟨a1, a2⟩
    rcases z₂ hs₂ with ⟨b1, b2⟩
    exfalso
    linarith
  · rcases n₁ hs₁ with ⟨a1, a2⟩
    rcases p₂ hs₂ with ⟨b1, b2⟩
    exfalso
    linarith
  · rcases n₁ hs₁ with ⟨a1, a2⟩
    rcases z₂ hs₂ with ⟨b1, b2⟩
    exfalso
    linarith
  · rcases z₁ hs₁ with ⟨a1, a2⟩
    rcases p₂ hs₂ with ⟨b1, b2⟩
    exfalso
    linarith
  · rcases z₁ hs₁ with ⟨a1, a2⟩
    rcases n₂ hs₂ with ⟨b1, b2⟩
    exfalso
    linarith

/-! ## C3: the label is determined by the compound -/

/-- C3: for every pair of inputs scored with the same range-valid models,
identical compound values force identical labels; the label is a function of
the compound alone, whatever the sub-scores or subjectivity are. -/
theorem label_determined_by_compound :
    ∀ (M : Models), valid_model_ranges M → ∀ i₁ i₂ : PyVal,
      (enhanced_sentiment_analysis M i₁).compound =
        (enhanced_sentiment_analysis M i₂).compound →
      (enhanced_sentiment_analysis M i₁).sentiment =
        (enhanced_sentiment_analysis M i₂).sentiment :=
  fun M hM i₁ i₂ hc =>
    bands_label_inj (enhanced_in_bands M hM i₁) (enhanced_in_bands M hM i₂) hc

lemma const_neutral_models_valid : valid_model_ranges const_neutral_models := by
  intro s
  unfold const_neutral_models
  norm_num

lemma const_neutral_eval (t : List Char) (ht : ¬t = []) :
    enhanced_sentiment_analysis const_neutral_models (PyVal.str t) =
      { compound := 0, positive := 0, negative := 0, neutral := 1,
        subjectivity := some 0, sentiment := Label.neutral,
        model := some ("distilbert-emulated") } := by
  unfold enhanced_sentiment_analysis
  dsimp only
  rw [if_neg ht]
  unfold distilbert_emulated const_neutral_models
  norm_num [min_def, max_def]

/-- Witness for C3: a non-degenerate text and a degenerate input share the
compound 0 under the all-neutral models, hence share the label. -/
theorem label_determined_by_compound_witness :
    (enhanced_sentiment_analysis const_neutral_models (PyVal.str ("a".toList))).sentiment =
      (enhanced_sentiment_analysis const_neutral_models PyVal.none).sentiment := by
  refine label_determined_by_compound const_neutral_models const_neutral_models_valid _ _ ?_
  rw [const_neutral_eval ("a".toList) (by decide)]
  rfl

/-! ## C1: the non-degenerate path applies the sharpened blend, not the canonical one -/

/-- C1 counterexample: on a non-degenerate input, the compound returned by
enhanced_sentiment_analysis differs from the canonical blend of 0.7 times
the lexicon compound plus 0.3 times the polarity (here 0.8 versus 0.78). -/
theorem canonical_blend_counterexample :
    ("good".toList ≠ ([] : List Char)) ∧
    (enhanced_sentiment_analysis sharp_example_models (PyVal.str ("good".toList))).compound ≠
      (sharp_example_models.vader (preprocess_text (PyVal.str ("good".toList)))).compound *
          (7/10) +
        (sharp_example_models.blob (preprocess_text (PyVal.str ("good".toList)))).polarity *
          (3/10) := by
  refine ⟨by decide, ?_⟩
  have hL : (enhanced_sentiment_analysis sharp_example_models
      (PyVal.str ("good".toList))).compound = 4/5 := by
    unfold enhanced_sentiment_analysis
    dsimp only
    rw [if_neg (by decide)]
    unfold distilbert_emulated sharp_example_models
    norm_num [min_def, max_def]
  have hR : (sharp_example_models.vader (preprocess_text (PyVal.str ("good".toList)))).compound *
        (7/10) +
      (sharp_example_models.blob (preprocess_text (PyVal.str ("good".toList)))).polarity *
        (3/10) = (39/50 : ℚ) := by
    unfold sharp_example_models
    norm_num
  rw [hL, hR]
  norm_num

/-- C1 (amended): on every non-degenerate input the compound is the
sharpened-blend value of the try branch — stretched into (0.6, 1] for a
positive label, into [-1, -0.6) for a negative label and kept within
[-0.275, 0.275] for a neutral label — while the canonical blend of 0.7 times
the lexicon compound plus 0.3 times the polarity is computed only by the
exception fallback vader_textblob_fallback, which normal execution does not
reach. -/
theorem sharpened_blend_not_canonical :
    ∀ (M : Models), valid_model_ranges M → ∀ t : List Char, t ≠ [] →
      InCompoundBands (enhanced_sentiment_analysis M (PyVal.str t)) ∧
      ∀ (v : VaderScores) (b : BlobSentiment),
        (vader_textblob_fallback v b).compound =
          v.compound * (7/10) + b.polarity * (3/10) :=
  fun M hM t _ => ⟨enhanced_in_bands M hM (PyVal.str t), fun _ _ => rfl⟩

/-- Witness for C1 at the all-neutral models and a concrete text. -/
theorem sharpened_blend_not_canonical_witness :
    InCompoundBands (enhanced_sentiment_analysis const_neutral_models
      (PyVal.str ("a".toList))) :=
  (sharpened_blend_not_canonical const_neutral_models const_neutral_models_valid
    ("a".toList) (by decide)).1

/-! ## C10: the sub-scores are a nonnegative partition of 1 -/

/-- C10: for every non-degenerate text, under the documented model ranges
(nonnegative pos and neg summing to at most 1, polarity within [-1, 1]), the
positive, negative and neutral sub-scores returned by the sharpened-blend
path are nonnegative and sum to exactly 1 in rational arithmetic. -/
theorem sub_scores_partition_one :
    ∀ (M : Models),
      (∀ s : List Char, 0 ≤ (M.vader s).pos ∧ 0 ≤ (M.vader s).neg ∧
        (M.vader s).pos + (M.vader s).neg ≤ 1 ∧
        -1 ≤ (M.blob s).polarity ∧ (M.blob s).polarity ≤ 1) →
      ∀ t : List Char, t ≠ [] →
        (enhanced_sentiment_analysis M (PyVal.str t)).positive +
            (enhanced_sentiment_analysis M (PyVal.str t)).negative +
            (enhanced_sentiment_analysis M (PyVal.str t)).neutral = 1 ∧
        0 ≤ (enhanced_sentiment_analysis M (PyVal.str t)).positive ∧
        0 ≤ (enhanced_sentiment_analysis M (PyVal.str t)).negative ∧
        0 ≤ (enhanced_sentiment_analysis M (PyVal.str t)).neutral := by
  intro M hM t ht
  rcases hM (preprocess_text_str t) with ⟨h1, h2, h3, h4, h5⟩
  unfold enhanced_sentiment_analysis
  dsimp only
  rw [if_neg ht]
  unfold distilbert_emulated
  dsimp only
  split_ifs with hpol
  · exact ⟨by ring, by linarith, by linarith, by linarith⟩
  · rw [abs_of_nonpos (le_of_not_lt hpol)]
    have hpolz : (M.blob (preprocess_text_str t)).polarity ≤ 0 := le_of_not_lt hpol
    exact ⟨by ring, by linarith, by linarith, by linarith⟩

/-- Witness for C10 at the all-neutral models and a concrete text. -/
theorem sub_scores_partition_one_witness :
    (enhanced_sentiment_analysis const_neutral_models (PyVal.str ("a".toList))).positive +
        (enhanced_sentiment_analysis const_neutral_models (PyVal.str ("a".toList))).negative +
        (enhanced_sentiment_analysis const_neutral_models (PyVal.str ("a".toList))).neutral = 1 :=
  (sub_scores_partition_one const_neutral_models
    (fun s => by norm_num [const_neutral_models]) ("a".toList) (by decide)).1

/-! ## C2: degenerate inputs and inputs that normalize to empty -/

/-- C2 counterexample: the non-empty string 123 normalizes to the empty
string, yet it passes the degenerate-input guard (which inspects only the
raw text), so both sentiment models are invoked on it — contradicting the
claim that no model is invoked for such inputs. -/
theorem degenerate_neutral_counterexample :
    preprocess_text (PyVal.str ("123".toList)) = [] ∧
    enhanced_sentiment_analysis_model_calls (PyVal.str ("123".toList)) = 2 := by
  exact ⟨by decide, by decide⟩

/-- C2 (amended): inputs that are empty, None or non-string return exactly
the fixed neutral dictionary without invoking either model; a non-empty
string that normalizes to the empty string does invoke both models (on the
empty normalized text), and provided the models return zero pos, neg and
polarity on empty text the returned score still carries compound 0,
positive 0, negative 0, neutral 1 and a neutral label. -/
theorem degenerate_neutral_amended :
    ∀ M : Models,
      (M.vader []).pos = 0 → (M.vader []).neg = 0 → (M.blob []).polarity = 0 →
      (∀ v : PyVal, (∀ s : List Char, v = PyVal.str s → s = []) →
        enhanced_sentiment_analysis M v = neutral_result ∧
        enhanced_sentiment_analysis_model_calls v = 0) ∧
      (∀ t : List Char, t ≠ [] → preprocess_text_str t = [] →
        enhanced_sentiment_analysis_model_calls (PyVal.str t) = 2 ∧
        (enhanced_sentiment_analysis M (PyVal.str t)).compound = 0 ∧
        (enhanced_sentiment_analysis M (PyVal.str t)).positive = 0 ∧
        (enhanced_sentiment_analysis M (PyVal.str t)).negative = 0 ∧
        (enhanced_sentiment_analysis M (PyVal.str t)).neutral = 1 ∧
        (enhanced_sentiment_analysis M (PyVal.str t)).sentiment = Label.neutral) := by
  intro M hp hn hb
  constructor
  · intro v hv
    cases v with
    | str s =>
      have hs : s = [] := hv s rfl
      subst hs
      exact ⟨rfl, rfl⟩
    | float q => exact ⟨rfl, rfl⟩
    | int z => exact ⟨rfl, rfl⟩
    | bool b' => exact ⟨rfl, rfl⟩
    | none => exact ⟨rfl, rfl⟩
  · intro t ht hpre
    have hcalls : enhanced_sentiment_analysis_model_calls (PyVal.str t) = 2 := by
      unfold enhanced_sentiment_analysis_model_calls
      dsimp only
      rw [if_neg ht]
    have he : enhanced_sentiment_analysis M (PyVal.str t) =
        distilbert_emulated (M.vader []) (M.blob []) := by
      unfold enhanced_sentiment_analysis
      dsimp only
      rw [if_neg ht, hpre]
    rw [he]
    unfold distilbert_emulated
    rw [hp, hn, hb]
    norm_num [min_def, max_def, hcalls]

/-- Witness for C2: None and the digit-only string 123 under the all-neutral
models. -/
theorem degenerate_neutral_witness :
    enhanced_sentiment_analysis const_neutral_models PyVal.none = neutral_result ∧
    enhanced_sentiment_analysis_model_calls (PyVal.str ("123".toList)) = 2 ∧
    (enhanced_sentiment_analysis const_neutral_models (PyVal.str ("123".toList))).compound = 0 := by
  have h := degenerate_neutral_amended const_neutral_models rfl rfl rfl
  exact ⟨(h.1 PyVal.none (fun s hs => nomatch hs)).1,
    (h.2 ("123".toList) (by decide) (by decide)).1,
    (h.2 ("123".toList) (by decide) (by decide)).2.1⟩

/-! ## C9: get_sentiment_stats mutates its input frame -/

lemma lookup_cons (a k : String) (v : List PyVal) (es : List (String × List PyVal)) :
    ((k, v) :: es).lookup a = if a == k then some v else es.lookup a := by
  cases hkb : (a == k) <;> simp [List.lookup, hkb]

lemma lookup_set_col_aux_self (name : String) (vs : List PyVal) :
    ∀ cols : List (String × List PyVal), (set_col_aux name vs cols).lookup name = some vs := by
  intro cols
  induction cols with
  | nil => simp [set_col_aux, lookup_cons]
  | cons p rest ih =>
    rcases p with ⟨m, ws⟩
    unfold set_col_aux
    split_ifs with h
    · simp [lookup_cons]
    · rw [lookup_cons, if_neg (by simpa using Ne.symm h), ih]

lemma lookup_set_col_aux_other (name : String) (vs : List PyVal) (m : String) (h : m ≠ name) :
    ∀ cols : List (String × List PyVal),
      (set_col_aux name vs cols).lookup m = cols.lookup m := by
  intro cols
  induction cols with
  | nil => simp [set_col_aux, lookup_cons, h]
  | cons p rest ih =>
    rcases p with ⟨k, ws⟩
    unfold set_col_aux
    split_ifs with hk
    · subst hk
      rw [lookup_cons, lookup_cons, if_neg (by simpa using h), if_neg (by simpa using h)]
    · rw [lookup_cons, lookup_cons, ih]

lemma col_setCol_self (df : Df) (n : String) (vs : List PyVal) :
    (df.setCol n vs).col n = vs := by
  unfold Df.setCol Df.col
  dsimp only
  rw [lookup_set_col_aux_self]
  rfl

lemma col_setCol_other (df : Df) (n m : String) (vs : List PyVal) (h : m ≠ n) :
    (df.setCol n vs).col m = df.col m := by
  unfold Df.setCol Df.col
  dsimp only
  rw [lookup_set_col_aux_other n vs m h]

lemma mem_map_fst_set_col_aux (n : String) (vs : List PyVal) :
    ∀ cols : List (String × List PyVal), n ∈ (set_col_aux n vs cols).map Prod.fst := by
  intro cols
  induction cols with
  | nil => simp [set_col_aux]
  | cons p rest ih =>
    rcases p with ⟨k, ws⟩
    unfold set_col_aux
    split_ifs with h
    · rw [List.map_cons]
      exact List.mem_cons_self _ _
    · rw [List.map_cons]
      exact List.mem_cons_of_mem _ ih

lemma mem_names_setCol_self (df : Df) (n : String) (vs : List PyVal) :
    n ∈ (df.setCol n vs).names := by
  unfold Df.setCol Df.names
  exact mem_map_fst_set_col_aux n vs df.cols

lemma mem_map_fst_set_col_aux_mono (n : String) (vs : List PyVal) (m : String) :
    ∀ cols : List (String × List PyVal),
      m ∈ cols.map Prod.fst → m ∈ (set_col_aux n vs cols).map Prod.fst := by
  intro cols
  induction cols with
  | nil =>
    intro hm
    simp at hm
  | cons p rest ih =>
    rcases p with ⟨k, ws⟩
    intro hm
    rw [List.map_cons] at hm
    unfold set_col_aux
    split_ifs with h
    · subst h
      rw [List.map_cons]
      exact hm
    · rw [List.map_cons]
      rcases List.mem_cons.mp hm with rfl | hm'
      · exact List.mem_cons_self _ _
      · exact List.mem_cons_of_mem _ (ih hm')

lemma mem_names_setCol_mono (df : Df) (n m : String) (vs : List PyVal)
    (h : m ∈ df.names) : m ∈ (df.setCol n vs).names := by
  unfold Df.setCol Df.names
  exact mem_map_fst_set_col_aux_mono n vs m df.cols h

/-- C9 (amended): get_sentiment_stats does mutate its input frame — it
assigns the five columns sentiment, compound, positive, negative and
neutral into it — but mutates nothing else: every other column keeps its
values, and in the degenerate case the frame is returned untouched. -/
theorem stats_mutates_only_sentiment_columns :
    ∀ (M : Models) (df : Df) (c : String),
      (df.isEmptyDf = true ∨ c ∉ df.names → (get_sentiment_stats M df c).2 = df) ∧
      (¬(df.isEmptyDf = true ∨ c ∉ df.names) →
        (∀ n : String,
          n ∉ [("sentiment" : String), ("compound" : String), ("positive" : String),
              ("negative" : String), ("neutral" : String)] →
          ((get_sentiment_stats M df c).2).col n = df.col n) ∧
        (∀ n : String,
          n ∈ [("sentiment" : String), ("compound" : String), ("positive" : String),
              ("negative" : String), ("neutral" : String)] →
          n ∈ ((get_sentiment_stats M df c).2).names)) := by
  intro M df c
  constructor
  · intro h
    unfold get_sentiment_stats
    rw [if_pos h]
  · intro h
    unfold get_sentiment_stats
    rw [if_neg h]
    dsimp only
    constructor
    · intro n hn
      simp only [List.mem_cons, List.not_mem_nil, or_false, not_or] at hn
      rcases hn with ⟨h1, h2, h3, h4, h5⟩
      rw [col_setCol_other _ _ _ _ h5, col_setCol_other _ _ _ _ h4,
        col_setCol_other _ _ _ _ h3, col_setCol_other _ _ _ _ h2,
        col_setCol_other _ _ _ _ h1]
    · intro n hn
      simp only [List.mem_cons, List.not_mem_nil, or_false] at hn
      rcases hn with rfl | rfl | rfl | rfl | rfl
      · exact mem_names_setCol_mono _ _ _ _ (mem_names_setCol_mono _ _ _ _
          (mem_names_setCol_mono _ _ _ _ (mem_names_setCol_mono _ _ _ _
            (mem_names_setCol_self _ _ _))))
      · exact mem_names_setCol_mono _ _ _ _ (mem_names_setCol_mono _ _ _ _
          (mem_names_setCol_mono _ _ _ _ (mem_names_setCol_self _ _ _)))
      · exact mem_names_setCol_mono _ _ _ _ (mem_names_setCol_mono _ _ _ _
          (mem_names_setCol_self _ _ _))
      · exact mem_names_setCol_mono _ _ _ _ (mem_names_setCol_self _ _ _)
      · exact mem_names_setCol_self _ _ _

/-- C9 counterexample: computing the statistics of a concrete one-column
frame changes the frame — the five sentiment columns appear in it. -/
theorem stats_mutation_counterexample :
    (get_sentiment_stats const_neutral_models df_example ("text")).2 ≠ df_example := by
  intro h
  have hn := congrArg Df.names h
  rw [show ((get_sentiment_stats const_neutral_models df_example ("text")).2).names =
      [("text" : String), ("sentiment" : String), ("compound" : String),
       ("positive" : String), ("negative" : String), ("neutral" : String)] from by decide] at hn
  exact absurd hn (by decide)

/-- Witness for C9 at the concrete one-column frame. -/
theorem stats_mutation_witness :
    ((get_sentiment_stats const_neutral_models df_example ("text")).2).col ("text") =
      df_example.col ("text") ∧
    ("sentiment" : String) ∈
      ((get_sentiment_stats const_neutral_models df_example ("text")).2).names := by
  have h := (stats_mutates_only_sentiment_columns const_neutral_models df_example
    ("text")).2 (by decide)
  exact ⟨h.1 ("text") (by decide), h.2 ("sentiment") (by decide)⟩

/-! ## C8: shape of the preprocessed text -/

lemma first_match_len_singleton (a : ReAlt) (l : List Char) :
    first_match_len [a] l = alt_match_len a l := by
  unfold first_match_len
  dsimp only
  split_ifs with h
  · rw [h]
    rfl
  · rfl

lemma mem_re_sub_go (alts : List ReAlt) (repl : List Char) :
    ∀ (fuel : ℕ) (l : List Char) (c : Char),
      c ∈ re_sub_go alts repl fuel l → c ∈ l ∨ c ∈ repl := by
  intro fuel
  induction fuel with
  | zero =>
    intro l c h
    simp [re_sub_go] at h
  | succ n ih =>
    intro l c h
    cases l with
    | nil => simp [re_sub_go] at h
    | cons d ds =>
      simp only [re_sub_go] at h
      by_cases hn : first_match_len alts (d :: ds) = 0
      · rw [if_pos hn] at h
        rcases List.mem_cons.mp h with rfl | h'
        · exact Or.inl (List.mem_cons_self _ _)
        · rcases ih ds c h' with h'' | h''
          · exact Or.inl (List.mem_cons_of_mem _ h'')
          · exact Or.inr h''
      · rw [if_neg hn] at h
        rcases List.mem_append.mp h with h' | h'
        · exact Or.inr h'
        · rcases ih _ c h' with h'' | h''
          · exact Or.inl (List.mem_of_mem_drop h'')
          · exact Or.inr h''

lemma first_match_len_nil_pre_zero_iff (p : Char → Bool) (d : Char) (ds : List Char) :
    first_match_len [⟨[], p⟩] (d :: ds) = 0 ↔ p d = false := by
  rw [first_match_len_singleton]
  simp only [alt_match_len, List.isPrefixOf, List.length_nil, List.drop_zero, if_true]
  by_cases hd : p d
  · rw [List.takeWhile_cons, if_pos hd]
    simp [hd]
  · rw [List.takeWhile_cons, if_neg hd]
    simp [hd]

lemma drop_takeWhile_length (p : Char → Bool) (l : List Char) :
    l.drop (l.takeWhile p).length = l.dropWhile p := by
  nth_rewrite 2 [← List.takeWhile_append_dropWhile (p := p) (l := l)]
  rw [List.drop_left]

lemma first_match_len_nil_pre_pos (p : Char → Bool) (d : Char) (ds : List Char)
    (h : first_match_len [⟨[], p⟩] (d :: ds) ≠ 0) :
    (d :: ds).drop (first_match_len [⟨[], p⟩] (d :: ds)) = (d :: ds).dropWhile p := by
  rw [first_match_len_singleton] at h ⊢
  simp only [alt_match_len, List.isPrefixOf, List.length_nil, List.drop_zero, if_true] at h ⊢
  by_cases ht : ((d :: ds).takeWhile p).length = 0
  · exact absurd (by rw [if_pos ht]) h
  · rw [if_neg ht, Nat.zero_add]
    exact drop_takeWhile_length p (d :: ds)

lemma re_sub_go_class_not_mem (p : Char → Bool) :
    ∀ (fuel : ℕ) (l : List Char) (c : Char),
      c ∈ re_sub_go [⟨[], p⟩] [] fuel l → p c = false := by
  intro fuel
  induction fuel with
  | zero =>
    intro l c h
    simp [re_sub_go] at h
  | succ n ih =>
    intro l c h
    cases l with
    | nil => simp [re_sub_go] at h
    | cons d ds =>
      simp only [re_sub_go] at h
      by_cases hn : first_match_len [⟨[], p⟩] (d :: ds) = 0
      · rw [if_pos hn] at h
        rcases List.mem_cons.mp h with rfl | h'
        · exact (first_match_len_nil_pre_zero_iff p c ds).mp hn
        · exact ih ds c h'
      · rw [if_neg hn, List.nil_append] at h
        exact ih _ c h

lemma dropWhile_head_false (p : Char → Bool) :
    ∀ (l : List Char) (e : Char) (es : List Char), l.dropWhile p = e :: es → p e = false := by
  intro l
  induction l with
  | nil =>
    intro e es h
    simp [List.dropWhile] at h
  | cons x xs ih =>
    intro e es h
    rw [List.dropWhile_cons] at h
    split_ifs at h with hx
    · exact ih e es h
    · injection h with h1 _
      subst h1
      exact Bool.eq_false_iff.mpr hx

lemma re_sub_ws_chars :
    ∀ (fuel : ℕ) (l : List Char) (c : Char),
      c ∈ re_sub_go [⟨[], is_space_char⟩] (' ' :: []) fuel l →
      is_space_char c = true → c = ' ' := by
  intro fuel
  induction fuel with
  | zero =>
    intro l c h
    simp [re_sub_go] at h
  | succ n ih =>
    intro l c h hws
    cases l with
    | nil => simp [re_sub_go] at h
    | cons d ds =>
      simp only [re_sub_go] at h
      by_cases hn : first_match_len [⟨[], is_space_char⟩] (d :: ds) = 0
      · rw [if_pos hn] at h
        rcases List.mem_cons.mp h with rfl | h'
        · rw [(first_match_len_nil_pre_zero_iff _ c ds).mp hn] at hws
          nomatch hws
        · exact ih ds c h' hws
      · rw [if_neg hn] at h
        rcases List.mem_cons.mp h with rfl | h'
        · rfl
        · exact ih _ c h' hws

lemma re_sub_ws_head_ws :
    ∀ (fuel : ℕ) (l : List Char) (c : Char),
      (re_sub_go [⟨[], is_space_char⟩] (' ' :: []) fuel l).head? = some c →
      is_space_char c = true →
      ∃ d ds, l = d :: ds ∧ is_space_char d = true := by
  intro fuel l c h hc
  cases fuel with
  | zero => simp [re_sub_go] at h
  | succ n =>
    cases l with
    | nil => simp [re_sub_go] at h
    | cons d ds =>
      simp only [re_sub_go] at h
      by_cases hn : first_match_len [⟨[], is_space_char⟩] (d :: ds) = 0
      · rw [if_pos hn, List.head?_cons] at h
        injection h with h
        rw [← h] at hc
        rw [(first_match_len_nil_pre_zero_iff _ d ds).mp hn] at hc
        nomatch hc
      · by_cases hd : is_space_char d
        · exact ⟨d, ds, rfl, hd⟩
        · exact absurd ((first_match_len_nil_pre_zero_iff _ d ds).mpr
            (Bool.eq_false_iff.mpr hd)) hn

lemma re_sub_ws_chain :
    ∀ (fuel : ℕ) (l : List Char),
      List.Chain' (fun a b => ¬(is_space_char a = true ∧ is_space_char b = true))
        (re_sub_go [⟨[], is_space_char⟩] (' ' :: []) fuel l) := by
  intro fuel
  induction fuel with
  | zero =>
    intro l
    simp [re_sub_go]
  | succ n ih =>
    intro l
    cases l with
    | nil => simp [re_sub_go]
    | cons d ds =>
      simp only [re_sub_go]
      by_cases hn : first_match_len [⟨[], is_space_char⟩] (d :: ds) = 0
      · rw [if_pos hn]
        refine List.chain'_cons'.mpr ⟨?_, ih ds⟩
        intro b _ hab
        rw [(first_match_len_nil_pre_zero_iff _ d ds).mp hn] at hab
        nomatch hab.1
      · rw [if_neg hn]
        refine List.chain'_cons'.mpr ⟨?_, ih _⟩
        intro b hb hab
        rw [first_match_len_nil_pre_pos _ d ds hn] at hb
        rcases re_sub_ws_head_ws n _ b hb hab.2 with ⟨e, es, heq, hews⟩
        rw [dropWhile_head_false _ _ _ _ heq] at hews
        nomatch hews

lemma strip_ws_front (l : List Char) :
    strip_ws l <+: l.dropWhile is_space_char := by
  unfold strip_ws
  refine List.reverse_suffix.mp ?_
  rw [List.reverse_reverse]
  exact List.dropWhile_suffix _

lemma strip_ws_inner (l : List Char) : strip_ws l <:+: l :=
  (strip_ws_front l).isInfix.trans (List.dropWhile_suffix _).isInfix

lemma head_dropWhile_false (p : Char → Bool) (l : List Char) (c : Char)
    (h : (l.dropWhile p).head? = some c) : p c = false := by
  cases hd : l.dropWhile p with
  | nil =>
    rw [hd] at h
    nomatch h
  | cons e es =>
    rw [hd, List.head?_cons] at h
    injection h with h
    subst h
    exact dropWhile_head_false p l _ _ hd

lemma strip_ws_head (l : List Char) (c : Char)
    (h : (strip_ws l).head? = some c) : is_space_char c = false := by
  rcases strip_ws_front l with ⟨s, hs⟩
  cases hr : strip_ws l with
  | nil =>
    rw [hr] at h
    nomatch h
  | cons x xs =>
    rw [hr, List.head?_cons] at h
    injection h with h
    subst h
    rw [hr, List.cons_append] at hs
    exact dropWhile_head_false _ l _ _ hs.symm

lemma strip_ws_getLast (l : List Char) (c : Char)
    (h : (strip_ws l).getLast? = some c) : is_space_char c = false := by
  unfold strip_ws at h
  rw [List.getLast?_reverse] at h
  exact head_dropWhile_false _ _ _ h

lemma char_ofNat_isLower (m : ℕ) (h1 : 97 ≤ m) (h2 : m ≤ 122) :
    (Char.ofNat m).isLower = true := by
  interval_cases m <;> decide

lemma char_isUpper_iff (c : Char) :
    c.isUpper = true ↔ 65 ≤ c.toNat ∧ c.toNat ≤ 90 := by
  simp only [Char.isUpper, Bool.and_eq_true, decide_eq_true_eq, ge_iff_le]
  rw [UInt32.le_def, UInt32.le_def, BitVec.le_def, BitVec.le_def]
  constructor
  · rintro ⟨ha, hb⟩
    exact ⟨by simpa [Char.toNat, UInt32.toNat] using ha,
      by simpa [Char.toNat, UInt32.toNat] using hb⟩
  · rintro ⟨ha, hb⟩
    exact ⟨by simpa [Char.toNat, UInt32.toNat] using ha,
      by simpa [Char.toNat, UInt32.toNat] using hb⟩

lemma toLower_alpha_lower (c : Char) :
    (Char.toLower c).isAlpha = true → (Char.toLower c).isLower = true := by
  unfold Char.toLower
  dsimp only
  split_ifs with h
  · intro _
    exact char_ofNat_isLower _ (by omega) (by omega)
  · intro ha
    have ha' : c.isUpper = true ∨ c.isLower = true := by
      simpa [Char.isAlpha] using ha
    rcases ha' with hu | hl
    · exact absurd ⟨(char_isUpper_iff c).mp hu |>.1, (char_isUpper_iff c).mp hu |>.2⟩ h
    · exact hl

lemma mem_re_sub (alts : List ReAlt) (repl : List Char) (l : List Char) (c : Char)
    (h : c ∈ re_sub alts repl l) : c ∈ l ∨ c ∈ repl :=
  mem_re_sub_go alts repl l.length l c h

lemma final_stages_props (t5 : List Char)
    (h5 : ∀ c ∈ t5, (is_word_char c || is_space_char c) = true)
    (hlow : ∀ c ∈ t5, c.isAlpha = true → c.isLower = true) :
    (∀ c ∈ strip_ws (re_sub [⟨[], is_space_char⟩] (' ' :: [])
        (re_sub [⟨[], Char.isDigit⟩] [] t5)),
      c.isLower = true ∨ c = '_' ∨ c = ' ') ∧
    List.Chain' (fun a b => ¬(a = ' ' ∧ b = ' '))
      (strip_ws (re_sub [⟨[], is_space_char⟩] (' ' :: [])
        (re_sub [⟨[], Char.isDigit⟩] [] t5))) ∧
    (strip_ws (re_sub [⟨[], is_space_char⟩] (' ' :: [])
      (re_sub [⟨[], Char.isDigit⟩] [] t5))).head? ≠ some ' ' ∧
    (strip_ws (re_sub [⟨[], is_space_char⟩] (' ' :: [])
      (re_sub [⟨[], Char.isDigit⟩] [] t5))).getLast? ≠ some ' ' := by
  set t6 := re_sub [⟨[], Char.isDigit⟩] [] t5 with ht6
  set t7 := re_sub [⟨[], is_space_char⟩] (' ' :: []) t6 with ht7
  have h6mem : ∀ c ∈ t6, c ∈ t5 := by
    intro c hc
    rcases mem_re_sub _ _ _ _ hc with h | h
    · exact h
    · simp at h
  have h6dig : ∀ c ∈ t6, c.isDigit = false := by
    intro c hc
    exact re_sub_go_class_not_mem _ _ _ _ hc
  have h7mem : ∀ c ∈ t7, c ∈ t6 ∨ c = ' ' := by
    intro c hc
    rcases mem_re_sub _ _ _ _ hc with h | h
    · exact Or.inl h
    · simp at h
      exact Or.inr h
  have h7ws : ∀ c ∈ t7, is_space_char c = true → c = ' ' :=
    fun c hc => re_sub_ws_chars _ _ c hc
  have h7chain : List.Chain' (fun a b => ¬(is_space_char a = true ∧ is_space_char b = true)) t7 := by
    rw [ht7]
    unfold re_sub
    exact re_sub_ws_chain _ _
  have hrmem : ∀ c ∈ strip_ws t7, c ∈ t7 :=
    fun c hc => (strip_ws_inner t7).sublist.subset hc
  refine ⟨?_, ?_, ?_, ?_⟩
  · intro c hc
    by_cases hsp : c = ' '
    · exact Or.inr (Or.inr hsp)
    have hc7 := hrmem c hc
    have hc6 : c ∈ t6 := (h7mem c hc7).resolve_right hsp
    have hc5 : c ∈ t5 := h6mem c hc6
    have hw' : is_word_char c = true ∨ is_space_char c = true := by
      simpa using h5 c hc5
    rcases hw' with hwc | hws
    · have hwc' : c.isAlphanum = true ∨ c = '_' := by
        simpa [is_word_char] using hwc
      rcases hwc' with han | hund
      · have han' : c.isAlpha = true ∨ c.isDigit = true := by
          simpa [Char.isAlphanum] using han
        rcases han' with hal | hdg
        · exact Or.inl (hlow c hc5 hal)
        · rw [h6dig c hc6] at hdg
          nomatch hdg
      · exact Or.inr (Or.inl hund)
    · exact absurd (h7ws c hc7 hws) hsp
  · have hchain2 := List.Chain'.infix h7chain (strip_ws_inner t7)
    refine hchain2.imp ?_
    intro a b hab habs
    rcases habs with ⟨rfl, rfl⟩
    exact hab ⟨by decide, by decide⟩
  · intro h
    exact absurd (strip_ws_head t7 ' ' h) (by decide)
  · intro h
    exact absurd (strip_ws_getLast t7 ' ' h) (by decide)

lemma preprocess_text_str_props (s : List Char) :
    (∀ c ∈ preprocess_text_str s, c.isLower = true ∨ c = '_' ∨ c = ' ') ∧
    List.Chain' (fun a b => ¬(a = ' ' ∧ b = ' ')) (preprocess_text_str s) ∧
    (preprocess_text_str s).head? ≠ some ' ' ∧
    (preprocess_text_str s).getLast? ≠ some ' ' := by
  have hlow1 : ∀ c ∈ s.map Char.toLower, c.isAlpha = true → c.isLower = true := by
    intro c hc
    rcases List.mem_map.mp hc with ⟨x, _, rfl⟩
    exact toLower_alpha_lower x
  have hlow2 : ∀ c ∈ re_sub url_alts [] (s.map Char.toLower),
      c.isAlpha = true → c.isLower = true := by
    intro c hc
    rcases mem_re_sub _ _ _ _ hc with h | h
    · exact hlow1 c h
    · simp at h
  have hlow3 : ∀ c ∈ re_sub [⟨('@' :: []), is_word_char⟩] []
      (re_sub url_alts [] (s.map Char.toLower)), c.isAlpha = true → c.isLower = true := by
    intro c hc
    rcases mem_re_sub _ _ _ _ hc with h | h
    · exact hlow2 c h
    · simp at h
  have hlow4 : ∀ c ∈ re_sub [⟨('#' :: []), is_word_char⟩] []
      (re_sub [⟨('@' :: []), is_word_char⟩] []
        (re_sub url_alts [] (s.map Char.toLower))), c.isAlpha = true → c.isLower = true := by
    intro c hc
    rcases mem_re_sub _ _ _ _ hc with h | h
    · exact hlow3 c h
    · simp at h
  have h5 : ∀ c ∈ (re_sub [⟨('#' :: []), is_word_char⟩] []
      (re_sub [⟨('@' :: []), is_word_char⟩] []
        (re_sub url_alts [] (s.map Char.toLower)))).filter
          (fun c => is_word_char c || is_space_char c),
      (is_word_char c || is_space_char c) = true := by
    intro c hc
    exact (List.mem_filter.mp hc).2
  have hlow5 : ∀ c ∈ (re_sub [⟨('#' :: []), is_word_char⟩] []
      (re_sub [⟨('@' :: []), is_word_char⟩] []
        (re_sub url_alts [] (s.map Char.toLower)))).filter
          (fun c => is_word_char c || is_space_char c),
      c.isAlpha = true → c.isLower = true :=
    fun c hc => hlow4 c (List.mem_filter.mp hc).1
  exact final_stages_props _ h5 hlow5

/-- C8 (amended): preprocess_text never fails and returns the empty string
on every non-string input; on ASCII string inputs — where the ASCII fragments
of the regex classes modelled here coincide with Python's Unicode classes —
every character of the output is a lowercase ASCII letter, an underscore or a
space (the \w class keeps underscores, so they survive the cleaning), with
no two adjacent spaces and no leading or trailing space.  Non-ASCII word
characters are kept by Python's Unicode \w and lie outside this ASCII-scoped
statement. -/
theorem preprocess_output_alphabet :
    ∀ v : PyVal,
      ((∀ s : List Char, v ≠ PyVal.str s) → preprocess_text v = []) ∧
      (∀ s : List Char, v = PyVal.str s → (∀ c ∈ s, c.toNat < 128) →
        (∀ c ∈ preprocess_text v, c.isLower = true ∨ c = '_' ∨ c = ' ') ∧
        List.Chain' (fun a b => ¬(a = ' ' ∧ b = ' ')) (preprocess_text v) ∧
        (preprocess_text v).head? ≠ some ' ' ∧
        (preprocess_text v).getLast? ≠ some ' ') := by
  intro v
  constructor
  · intro hv
    cases v with
    | str s => exact absurd rfl (hv s)
    | float q => rfl
    | int z => rfl
    | bool b => rfl
    | none => rfl
  · intro s hs _
    subst hs
    exact preprocess_text_str_props s

/-- C8 counterexample: the underscore survives the whole cleaning pipeline
(the \w class of the character filter keeps it), so the output is not made of
lowercase letters and spaces only. -/
theorem preprocess_underscore_counterexample :
    preprocess_text (PyVal.str ('_' :: [])) = '_' :: [] ∧
    ¬(('_' : Char).isLower = true ∨ ('_' : Char) = ' ') :=
  ⟨by decide, by decide⟩

/-- Witness for C8: a non-string input and a concrete character of a
concrete cleaned ASCII string. -/
theorem preprocess_output_alphabet_witness :
    preprocess_text (PyVal.int 3) = [] ∧
    (('a' : Char).isLower = true ∨ ('a' : Char) = '_' ∨ ('a' : Char) = ' ') :=
  ⟨(preprocess_output_alphabet (PyVal.int 3)).1 (fun s hs => nomatch hs),
   ((preprocess_output_alphabet (PyVal.str ("ab".toList))).2 ("ab".toList) rfl
     (by decide)).1 'a' (by decide)⟩
